import Mathlib

/-!
Verification of the contact-submission pipeline of the portfolio backend
(`src/main.py`).  The backend's only stateful operation is the `/contact`
handler `submit_contact`: a pydantic model `ContactRequest` validates the
request body (`name` and `message` via `min_length=1`, `email` via
`EmailStr`, `timestamp` a `datetime` with `default_factory=datetime.utcnow`),
and on success the handler appends the line
`f"{timestamp.isoformat()}\t{name}\t{email}\t{message}\n"` to the file
`messages.txt`; an exception during the append is turned into an
HTTP 500 error with detail `"Failed to persist message: {exc}"`, and
otherwise the handler returns
`{"status": "success", "message": "Thank you for reaching out!"}`.

We embed the handler shallowly: the file `messages.txt` is a `String`
accumulating the appended bytes, the environment's willingness to let the
append succeed is a `Bool`, and Python `datetime` values are a record of
their calendar fields plus an optional UTC offset (in minutes);
`datetime.utcnow` returns a naive value (offset `none`).
-/

/-- Python `datetime`: the fields observed by `isoformat`, with
`tzOffsetMinutes = none` for a naive value (as returned by
`datetime.utcnow()`) and `some off` for an aware value with a UTC offset
of `off` minutes. -/
structure Datetime where
  year : Nat
  month : Nat
  day : Nat
  hour : Nat
  minute : Nat
  second : Nat
  microsecond : Nat
  tzOffsetMinutes : Option Int
deriving DecidableEq, Repr

/-- Zero-pad the decimal rendering of `n` to `width` digits. -/
def padNum (width n : Nat) : String :=
  let s := toString n
  String.mk (List.replicate (width - s.length) '0') ++ s

/-- The `YYYY-MM-DDTHH:MM:SS` part of Python `datetime.isoformat()`. -/
def Datetime.isoBase (d : Datetime) : String :=
  padNum 4 d.year ++ "-" ++ padNum 2 d.month ++ "-" ++ padNum 2 d.day ++ "T" ++
  padNum 2 d.hour ++ ":" ++ padNum 2 d.minute ++ ":" ++ padNum 2 d.second

/-- The fractional-seconds part of `isoformat`: empty when the microsecond
field is zero, else a dot followed by six digits. -/
def Datetime.isoFrac (d : Datetime) : String :=
  if d.microsecond = 0 then "" else "." ++ padNum 6 d.microsecond

/-- Rendering of a UTC offset of `off` minutes as `+HH:MM` / `-HH:MM`,
as Python renders `tzinfo.utcoffset` inside `isoformat`. -/
def offsetString (off : Int) : String :=
  (if off < 0 then "-" else "+") ++
  padNum 2 (off.natAbs / 60) ++ ":" ++ padNum 2 (off.natAbs % 60)

/-- The UTC-offset designator appended by `isoformat`: empty for a naive
value, `±HH:MM` for an aware one. -/
def Datetime.isoOffset (d : Datetime) : String :=
  match d.tzOffsetMinutes with
  | none => ""
  | some off => offsetString off

/-- Python `datetime.isoformat()`. -/
def Datetime.isoformat (d : Datetime) : String :=
  d.isoBase ++ d.isoFrac ++ d.isoOffset

/-- Split a character list at every occurrence of `c` (the list analogue of
Python `str.split(c)`); used to state the email grammar executably. -/
def splitOnChar (c : Char) : List Char → List (List Char)
  | [] => [[]]
  | x :: xs =>
    match splitOnChar c xs with
    | [] => if x = c then [[], []] else [[x]]
    | h :: t => if x = c then [] :: h :: t else (x :: h) :: t

/-- Modelled from the spec: the `EmailStr` field of `ContactRequest` is
checked by the external email-validator library, whose code is not part of
this repository.  The spec states the accepted grammar: exactly one `@`,
a non-empty local part, and a domain containing at least one `.`. -/
def isValidEmail (s : String) : Bool :=
  match splitOnChar '@' s.data with
  | [l, d] => !l.isEmpty && d.contains '.'
  | _ => false

/-- The numeric value of a decimal digit character. -/
def digitVal (c : Char) : Option Nat :=
  if c.isDigit then some (c.toNat - 48) else none

/-- Two decimal digits as a number. -/
def num2 (a b : Char) : Option Nat := do
  let x ← digitVal a
  let y ← digitVal b
  pure (10 * x + y)

/-- Four decimal digits as a number. -/
def num4 (a b c d : Char) : Option Nat := do
  let x ← num2 a b
  let y ← num2 c d
  pure (100 * x + y)

/-- The value of a list of decimal digit characters. -/
def digitsToNat (cs : List Char) : Option Nat :=
  cs.foldl (fun acc c => do
    let a ← acc
    let d ← digitVal c
    pure (10 * a + d)) (some 0)

/-- Modelled from the spec: the optional UTC-offset suffix of an ISO-8601
timestamp, `Z` or `±HH:MM`, returned in minutes; `none` offset for a naive
timestamp. -/
def parseOffset : List Char → Option (Option Int)
  | [] => some none
  | ['Z'] => some (some 0)
  | [sgn, h1, h2, ':', m1, m2] => do
    let h ← num2 h1 h2
    let m ← num2 m1 m2
    if h ≤ 23 ∧ m ≤ 59 then
      if sgn = '+' then some (some (h * 60 + m))
      else if sgn = '-' then some (some (-(h * 60 + m : Int)))
      else none
    else none
  | _ => none

/-- Modelled from the spec: the tail of an ISO-8601 timestamp after the
seconds field — an optional fractional part of one to six digits, then an
optional UTC offset.  Returns microseconds and the offset. -/
def parseTail : List Char → Option (Nat × Option Int)
  | '.' :: rest =>
    let ds := rest.takeWhile Char.isDigit
    let rest2 := rest.dropWhile Char.isDigit
    if 1 ≤ ds.length ∧ ds.length ≤ 6 then do
      let v ← digitsToNat ds
      let off ← parseOffset rest2
      pure (v * 10 ^ (6 - ds.length), off)
    else none
  | rest => do
    let off ← parseOffset rest
    pure (0, off)

/-- Modelled from the spec: pydantic parses a string supplied for the
`timestamp: datetime` field with an external ISO-8601 parser that is not
part of this repository.  We model the core grammar the spec names,
`YYYY-MM-DDTHH:MM:SS[.ffffff][Z|+HH:MM|-HH:MM]`, with field range checks
(day-of-month simplified to 1–31). -/
def parseIso (s : String) : Option Datetime :=
  match s.data with
  | y1 :: y2 :: y3 :: y4 :: '-' :: mo1 :: mo2 :: '-' :: d1 :: d2 :: 'T' ::
    h1 :: h2 :: ':' :: mi1 :: mi2 :: ':' :: s1 :: s2 :: rest => do
    let y ← num4 y1 y2 y3 y4
    let mo ← num2 mo1 mo2
    let da ← num2 d1 d2
    let h ← num2 h1 h2
    let mi ← num2 mi1 mi2
    let se ← num2 s1 s2
    let (us, off) ← parseTail rest
    if 1 ≤ mo ∧ mo ≤ 12 ∧ 1 ≤ da ∧ da ≤ 31 ∧ h ≤ 23 ∧ mi ≤ 59 ∧ se ≤ 59 then
      some ⟨y, mo, da, h, mi, se, us, off⟩
    else none
  | _ => none

/-- The `timestamp` member of the request body: the key may be missing, be
an explicit JSON `null`, or carry a string to be parsed as a timestamp. -/
inductive TimestampInput where
  | absent
  | null
  | str (s : String)
deriving DecidableEq, Repr

/-- The raw request body of `POST /contact` before validation. -/
structure RawContact where
  name : String
  email : String
  message : String
  timestamp : TimestampInput
deriving DecidableEq, Repr

/-- The validated `ContactRequest` pydantic model of `src/main.py`:
`name` and `message` non-empty, `email` a valid address, `timestamp` a
`datetime` (defaulted to `datetime.utcnow()` when the key was absent). -/
structure ContactRequest where
  name : String
  email : String
  message : String
  timestamp : Datetime
deriving DecidableEq, Repr

/-- The names of the fields that fail pydantic validation, in field
declaration order (`name`, `email`, `message`, `timestamp`):
`name`/`message` fail when shorter than `min_length=1`, `email` when not a
valid address, `timestamp` when an explicit `null` (the field is not
`Optional`) or an unparseable string. -/
def fieldErrors (r : RawContact) : List String :=
  (if r.name.length ≥ 1 then [] else ["name"]) ++
  (if isValidEmail r.email then [] else ["email"]) ++
  (if r.message.length ≥ 1 then [] else ["message"]) ++
  (match r.timestamp with
   | .absent => []
   | .null => ["timestamp"]
   | .str s => match parseIso s with
     | some _ => []
     | none => ["timestamp"])

/-- The `datetime` the validated model carries: the parsed value when a
string was supplied, the per-construction `default_factory` result `now`
when the key was absent, and nothing for `null` or a parse failure. -/
def resolveTimestamp (t : TimestampInput) (now : Datetime) : Option Datetime :=
  match t with
  | .absent => some now
  | .null => none
  | .str s => parseIso s

/-- Pydantic validation of the request body into a `ContactRequest`.
`now` is the value of `datetime.utcnow()` evaluated by `default_factory`
for this construction.  On failure, the list of offending field names is
reported (FastAPI turns it into an HTTP 422 response). -/
def validate (r : RawContact) (now : Datetime) :
    Except (List String) ContactRequest :=
  if fieldErrors r = [] then
    match resolveTimestamp r.timestamp now with
    | some ts => .ok ⟨r.name, r.email, r.message, ts⟩
    | none => .error ["timestamp"]
  else .error (fieldErrors r)

/-- The success acknowledgement dictionary. -/
structure Ack where
  status : String
  message : String
deriving DecidableEq, Repr

/-- The outcome of one `POST /contact` request: the success dictionary, a
validation rejection produced by FastAPI from pydantic's field errors, or
the `HTTPException` raised when the append fails. -/
inductive SubmitResult where
  | accepted (ack : Ack)
  | validationError (fields : List String)
  | persistenceError (detail : String)
deriving DecidableEq, Repr

/-- The HTTP status class of each outcome: 422 for a pydantic validation
failure, 500 for `HTTP_500_INTERNAL_SERVER_ERROR`, 200 for success. -/
def SubmitResult.httpStatus : SubmitResult → Nat
  | .accepted _ => 200
  | .validationError _ => 422
  | .persistenceError _ => 500

/-- The `log_entry` string of `submit_contact`:
`f"{timestamp.isoformat()}\t{name}\t{email}\t{message}\n"`. -/
def logEntry (c : ContactRequest) : String :=
  c.timestamp.isoformat ++ "\t" ++ c.name ++ "\t" ++ c.email ++ "\t" ++
  c.message ++ "\n"

/-- The `/contact` handler.  `log` is the current contents of
`messages.txt`; `appendOk` is whether the environment lets the append
succeed; `exc` is the text of the exception when it does not; `now` is
what `datetime.utcnow()` returns during validation of this request.
Returns the outcome and the new contents of `messages.txt`. -/
def submit_contact (r : RawContact) (now : Datetime) (appendOk : Bool)
    (exc : String) (log : String) : SubmitResult × String :=
  match validate r now with
  | .error errs => (.validationError errs, log)
  | .ok c =>
    if appendOk then
      (.accepted ⟨"success", "Thank you for reaching out!"⟩, log ++ logEntry c)
    else
      (.persistenceError ("Failed to persist message: " ++ exc), log)

/-- Run a sequence of submissions (each with its own `utcnow` value) in
order against the log, with every append allowed to succeed; collect the
outcomes and the final log. -/
def runAll : List (RawContact × Datetime) → String → List SubmitResult × String
  | [], log => ([], log)
  | p :: rest, log =>
    let step := submit_contact p.1 p.2 true "" log
    let tail := runAll rest step.2
    (step.1 :: tail.1, tail.2)

/-- The number of newline characters in `s`: for a text file in which every
record is `\n`-terminated, the number of lines. -/
def countLines (s : String) : Nat := s.data.count '\n'

/-- The bytes a submission contributes to the log when every append
succeeds: its `log_entry` when it validates, nothing when it is
rejected. -/
def entryOf (p : RawContact × Datetime) : String :=
  match validate p.1 p.2 with
  | .ok c => logEntry c
  | .error _ => ""

/-- True when none of the four serialized fields of a validated request
contains a newline character. -/
def fieldsNoNewline (c : ContactRequest) : Bool :=
  countLines c.timestamp.isoformat = 0 && countLines c.name = 0 &&
  countLines c.email = 0 && countLines c.message = 0

deriving instance DecidableEq for Except

/-- A sample value of `datetime.utcnow()`, used to instantiate the theorems
at concrete inputs. -/
def utcnowSample : Datetime := ⟨2024, 1, 2, 3, 4, 5, 0, none⟩

/-- The success dictionary returned by `submit_contact`. -/
def ackSuccess : Ack := ⟨"success", "Thank you for reaching out!"⟩

lemma strLenPos (s : String) : s.length ≥ 1 ↔ s ≠ "" := by
  cases s with
  | mk cs =>
    cases cs with
    | nil => simp [String.length]
    | cons c cs =>
      simp only [String.length]
      constructor
      · intro _ h
        have : (String.mk (c :: cs)).data = ("" : String).data := by rw [h]
        simp at this
      · intro _
        simp

/-- Membership in pydantic's error list, characterized field by field. -/
lemma mem_fieldErrors (r : RawContact) (f : String) :
    f ∈ fieldErrors r ↔
      (f = "name" ∧ r.name = "") ∨
      (f = "email" ∧ isValidEmail r.email = false) ∨
      (f = "message" ∧ r.message = "") ∨
      (f = "timestamp" ∧ (r.timestamp = .null ∨
        ∃ s, r.timestamp = .str s ∧ parseIso s = none)) := by
  obtain ⟨nm, em, ms, ts⟩ := r
  simp only [fieldErrors, List.mem_append]
  cases ts with
  | absent => by_cases h1 : nm.length ≥ 1 <;> by_cases h2 : isValidEmail em <;>
      by_cases h3 : ms.length ≥ 1 <;> simp_all [strLenPos, or_assoc]
  | null => by_cases h1 : nm.length ≥ 1 <;> by_cases h2 : isValidEmail em <;>
      by_cases h3 : ms.length ≥ 1 <;> simp_all [strLenPos, or_assoc]
  | str s =>
    cases hp : parseIso s <;>
      (by_cases h1 : nm.length ≥ 1 <;> by_cases h2 : isValidEmail em <;>
        by_cases h3 : ms.length ≥ 1 <;> simp_all [strLenPos, or_assoc])

/-- Pydantic accepts the body exactly when every field contract holds. -/
lemma fieldErrors_nil_iff (r : RawContact) :
    fieldErrors r = [] ↔
      r.name ≠ "" ∧ isValidEmail r.email = true ∧ r.message ≠ "" ∧
      r.timestamp ≠ .null ∧
      (∀ s, r.timestamp = .str s → parseIso s ≠ none) := by
  obtain ⟨nm, em, ms, ts⟩ := r
  simp only [fieldErrors, List.append_eq_nil]
  cases ts with
  | absent => by_cases h1 : nm.length ≥ 1 <;> by_cases h2 : isValidEmail em <;>
      by_cases h3 : ms.length ≥ 1 <;> simp_all [strLenPos, or_assoc]
  | null => by_cases h1 : nm.length ≥ 1 <;> by_cases h2 : isValidEmail em <;>
      by_cases h3 : ms.length ≥ 1 <;> simp_all [strLenPos, or_assoc]
  | str s =>
    cases hp : parseIso s <;>
      (by_cases h1 : nm.length ≥ 1 <;> by_cases h2 : isValidEmail em <;>
        by_cases h3 : ms.length ≥ 1 <;> simp_all [strLenPos, or_assoc])

lemma validate_eq_error (r : RawContact) (now : Datetime)
    (h : fieldErrors r ≠ []) : validate r now = .error (fieldErrors r) := by
  unfold validate
  rw [if_neg h]

lemma validate_error_of_mem (r : RawContact) (now : Datetime) (f : String)
    (h : f ∈ fieldErrors r) :
    ∃ errs, validate r now = .error errs ∧ f ∈ errs :=
  ⟨fieldErrors r, validate_eq_error r now (List.ne_nil_of_mem h), h⟩

/-- If validation succeeds, the model carries the raw fields unchanged and
a timestamp obtained from `resolveTimestamp`. -/
lemma validate_ok_inv (r : RawContact) (now : Datetime) (c : ContactRequest)
    (h : validate r now = .ok c) :
    fieldErrors r = [] ∧ c.name = r.name ∧ c.email = r.email ∧
    c.message = r.message ∧
    resolveTimestamp r.timestamp now = some c.timestamp := by
  unfold validate at h
  by_cases he : fieldErrors r = []
  · rw [if_pos he] at h
    cases hr : resolveTimestamp r.timestamp now with
    | none => rw [hr] at h; cases h
    | some ts =>
      rw [hr] at h
      injection h with h2
      subst h2
      exact ⟨he, rfl, rfl, rfl, rfl⟩
  · rw [if_neg he] at h; cases h

/-- When every field contract holds, the timestamp member resolves. -/
lemma resolveTimestamp_some (r : RawContact) (now : Datetime)
    (h : fieldErrors r = []) :
    ∃ d, resolveTimestamp r.timestamp now = some d := by
  rw [fieldErrors_nil_iff] at h
  obtain ⟨-, -, -, hnull, hstr⟩ := h
  cases ht : r.timestamp with
  | absent => exact ⟨now, rfl⟩
  | null => exact absurd ht hnull
  | str s =>
    cases hp : parseIso s with
    | none => exact absurd hp (hstr s ht)
    | some d => exact ⟨d, by simp [resolveTimestamp, hp]⟩

lemma validate_ok_of_nil (r : RawContact) (now : Datetime)
    (h : fieldErrors r = []) : ∃ c, validate r now = .ok c := by
  obtain ⟨d, hd⟩ := resolveTimestamp_some r now h
  refine ⟨⟨r.name, r.email, r.message, d⟩, ?_⟩
  unfold validate
  rw [if_pos h, hd]

lemma countLines_append (a b : String) :
    countLines (a ++ b) = countLines a + countLines b := by
  simp [countLines, String.data_append]

/-- Concatenation of a list of strings (in order). -/
def joinAll : List String → String
  | [] => ""
  | a :: t => a ++ joinAll t

lemma countLines_joinAll (l : List String) :
    countLines (joinAll l) = (l.map countLines).sum := by
  induction l with
  | nil => rfl
  | cons a t ih => rw [joinAll, countLines_append, ih, List.map_cons, List.sum_cons]

/-- What one request does to the log when the environment lets appends
succeed: exactly its `entryOf` bytes are appended. -/
lemma submit_contact_snd (r : RawContact) (now : Datetime) (exc log : String) :
    (submit_contact r now true exc log).2 = log ++ entryOf (r, now) := by
  unfold submit_contact entryOf
  cases h : validate r now with
  | error errs => simp [String.append_empty]
  | ok c => simp

/-- The final log of a run is the original log followed by each
submission's contribution, in completion order. -/
lemma runAll_snd (subs : List (RawContact × Datetime)) (log : String) :
    (runAll subs log).2 = log ++ joinAll (subs.map entryOf) := by
  induction subs generalizing log with
  | nil => simp [runAll, joinAll, String.append_empty]
  | cons p t ih =>
    obtain ⟨r, now⟩ := p
    simp only [runAll]
    rw [ih, submit_contact_snd, List.map_cons, joinAll, ← String.append_assoc]

lemma submit_contact_ok (r : RawContact) (now : Datetime) (c : ContactRequest)
    (exc log : String) (h : validate r now = .ok c) :
    submit_contact r now true exc log =
      (.accepted ackSuccess, log ++ logEntry c) := by
  unfold submit_contact
  rw [h]
  rfl

lemma submit_contact_fail (r : RawContact) (now : Datetime) (c : ContactRequest)
    (exc log : String) (h : validate r now = .ok c) :
    submit_contact r now false exc log =
      (.persistenceError ("Failed to persist message: " ++ exc), log) := by
  unfold submit_contact
  rw [h]
  rfl

/-- When every submission of a run validates, every outcome is the success
acknowledgement. -/
lemma runAll_fst (subs : List (RawContact × Datetime)) (log : String)
    (h : ∀ p ∈ subs, ∃ c, validate p.1 p.2 = .ok c) :
    (runAll subs log).1 =
      subs.map (fun _ => SubmitResult.accepted ackSuccess) := by
  induction subs generalizing log with
  | nil => rfl
  | cons p t ih =>
    obtain ⟨c, hc⟩ := h p (List.mem_cons_self p t)
    obtain ⟨r, now⟩ := p
    simp only [runAll, List.map_cons]
    rw [submit_contact_ok r now c _ _ hc]
    exact congrArg _ (ih _ fun q hq => h q (List.mem_cons_of_mem _ hq))

lemma countLines_tab : countLines "\t" = 0 := rfl

lemma countLines_nl : countLines "\n" = 1 := rfl

/-- A record none of whose fields contains a newline is a single
`\n`-terminated line. -/
lemma countLines_logEntry (c : ContactRequest) (h : fieldsNoNewline c = true) :
    countLines (logEntry c) = 1 := by
  unfold fieldsNoNewline at h
  simp only [Bool.and_eq_true, decide_eq_true_eq] at h
  obtain ⟨⟨⟨h1, h2⟩, h3⟩, h4⟩ := h
  unfold logEntry
  simp [countLines_append, h1, h2, h3, h4, countLines_tab, countLines_nl]

lemma offsetString_ne_empty (off : Int) : offsetString off ≠ "" := by
  rw [← strLenPos, offsetString]
  have h1 : ((if off < 0 then "-" else "+") : String).length = 1 := by
    by_cases ho : off < 0 <;> simp [ho] <;> rfl
  rw [String.length_append, String.length_append, String.length_append, h1]
  omega

lemma strEmptyAppend (s : String) : "" ++ s = s := by
  cases s
  rfl

lemma sum_ones (l : List Nat) (h : ∀ x ∈ l, x = 1) : l.sum = l.length := by
  induction l with
  | nil => rfl
  | cons a t ih =>
    rw [List.sum_cons, h a (List.mem_cons_self a t),
      ih (fun x hx => h x (List.mem_cons_of_mem a hx)), List.length_cons]
    omega

/-- C1 (counterexample): a single submission to `submit_contact` that
returns success but whose message contains a newline leaves two lines in
`messages.txt`, not one. -/
theorem submit_log_lines_cex :
    (runAll [(⟨"A", "a@b.cd", "x\ny", .absent⟩, utcnowSample)] "").1 =
      [SubmitResult.accepted ackSuccess] ∧
    countLines (runAll [(⟨"A", "a@b.cd", "x\ny", .absent⟩, utcnowSample)] "").2 = 2 :=
  ⟨rfl, rfl⟩

/-- C1 (amended): provided every submission validates and none of its four
serialized fields contains a newline, a run of N submissions returns N
success acknowledgements and leaves exactly N lines in the log, the log
being precisely the tab-separated records of the submissions in completion
order. -/
theorem submit_log_lines (subs : List (RawContact × Datetime))
    (h : ∀ p ∈ subs, ∃ c, validate p.1 p.2 = .ok c ∧ fieldsNoNewline c = true) :
    (runAll subs "").1 = subs.map (fun _ => SubmitResult.accepted ackSuccess) ∧
    (runAll subs "").2 = joinAll (subs.map entryOf) ∧
    countLines (runAll subs "").2 = subs.length := by
  refine ⟨runAll_fst subs "" (fun p hp => (h p hp).imp fun c hc => hc.1), ?_, ?_⟩
  · rw [runAll_snd, strEmptyAppend]
  · rw [runAll_snd, strEmptyAppend]
    rw [countLines_joinAll]
    have key : ∀ x ∈ (subs.map entryOf).map countLines, x = 1 := by
      intro x hx
      rw [List.map_map, List.mem_map] at hx
      obtain ⟨p, hp, hpx⟩ := hx
      obtain ⟨c, hc, hnl⟩ := h p hp
      rw [← hpx]
      show countLines (entryOf p) = 1
      unfold entryOf
      rw [hc]
      exact countLines_logEntry c hnl
    rw [sum_ones _ key]
    simp

/-- Witness for the amended C1 at a concrete newline-free submission. -/
theorem submit_log_lines_witness :
    countLines
      (runAll [(⟨"Ada", "ada@example.com", "Hello", .absent⟩, utcnowSample)] "").2 = 1 :=
  (submit_log_lines [(⟨"Ada", "ada@example.com", "Hello", .absent⟩, utcnowSample)]
    (by
      intro p hp
      rw [List.mem_singleton] at hp
      subst hp
      exact ⟨⟨"Ada", "ada@example.com", "Hello", utcnowSample⟩, rfl, by decide⟩)).2.2

/-- C2 (counterexample): a submission that passes validation with a newline
inside its name appends a record containing two newlines — not a single
tab-separated line. -/
theorem record_line_cex :
    validate ⟨"x\ny", "a@b.cd", "Hi", .absent⟩ utcnowSample =
      .ok ⟨"x\ny", "a@b.cd", "Hi", utcnowSample⟩ ∧
    (submit_contact ⟨"x\ny", "a@b.cd", "Hi", .absent⟩ utcnowSample true "" "").2 =
      "2024-01-02T03:04:05\tx\ny\ta@b.cd\tHi\n" ∧
    countLines
      (submit_contact ⟨"x\ny", "a@b.cd", "Hi", .absent⟩ utcnowSample true "" "").2 = 2 :=
  ⟨rfl, rfl, rfl⟩

/-- C2 (amended): on successful validation the appended record is exactly
`timestamp.isoformat ⧺ TAB ⧺ name ⧺ TAB ⧺ email ⧺ TAB ⧺ message ⧺ NL` —
the four fields in the fixed order with the timestamp rendered by
`isoformat` — and it is a single newline-terminated line provided no field
contains a newline character. -/
theorem record_schema (r : RawContact) (now : Datetime) (c : ContactRequest)
    (exc log : String) (h : validate r now = .ok c) :
    (submit_contact r now true exc log).2 =
      log ++ (c.timestamp.isoformat ++ "\t" ++ c.name ++ "\t" ++ c.email ++
        "\t" ++ c.message ++ "\n") ∧
    c.name = r.name ∧ c.email = r.email ∧ c.message = r.message ∧
    (fieldsNoNewline c = true → countLines (logEntry c) = 1) := by
  obtain ⟨-, h1, h2, h3, -⟩ := validate_ok_inv r now c h
  exact ⟨by rw [submit_contact_ok r now c exc log h]; rfl, h1, h2, h3,
    countLines_logEntry c⟩

/-- Witness for the amended C2 at a concrete validated submission. -/
theorem record_schema_witness :
    (submit_contact ⟨"Ada", "ada@example.com", "Hello", .absent⟩ utcnowSample
        true "" "").2 =
      "" ++ (utcnowSample.isoformat ++ "\t" ++ "Ada" ++ "\t" ++
        "ada@example.com" ++ "\t" ++ "Hello" ++ "\n") ∧
    ("Ada" : String) = "Ada" ∧
    ("ada@example.com" : String) = "ada@example.com" ∧
    ("Hello" : String) = "Hello" ∧
    (fieldsNoNewline ⟨"Ada", "ada@example.com", "Hello", utcnowSample⟩ = true →
      countLines (logEntry ⟨"Ada", "ada@example.com", "Hello", utcnowSample⟩) = 1) :=
  record_schema ⟨"Ada", "ada@example.com", "Hello", .absent⟩ utcnowSample
    ⟨"Ada", "ada@example.com", "Hello", utcnowSample⟩ "" "" rfl

/-- C3: an input with an empty name is rejected with a validation error
naming the field `name`; an input with an empty message is rejected with a
validation error naming the field `message`. -/
theorem empty_field_rejection (r : RawContact) (now : Datetime) :
    (r.name = "" → ∃ errs, validate r now = .error errs ∧ "name" ∈ errs) ∧
    (r.message = "" → ∃ errs, validate r now = .error errs ∧ "message" ∈ errs) := by
  constructor
  · intro h
    exact validate_error_of_mem r now "name"
      ((mem_fieldErrors r "name").2 (Or.inl ⟨rfl, h⟩))
  · intro h
    exact validate_error_of_mem r now "message"
      ((mem_fieldErrors r "message").2 (Or.inr (Or.inr (Or.inl ⟨rfl, h⟩))))

/-- Witness for C3: the spec's Scenario B input and its `message`
analogue. -/
theorem empty_field_rejection_witness :
    (∃ errs, validate ⟨"", "ada@example.com", "Hi", .absent⟩ utcnowSample =
      .error errs ∧ "name" ∈ errs) ∧
    (∃ errs, validate ⟨"Bob", "b@c.co", "", .absent⟩ utcnowSample =
      .error errs ∧ "message" ∈ errs) :=
  ⟨(empty_field_rejection ⟨"", "ada@example.com", "Hi", .absent⟩ utcnowSample).1 rfl,
   (empty_field_rejection ⟨"Bob", "b@c.co", "", .absent⟩ utcnowSample).2 rfl⟩

/-- C4: `"not-an-email"` and `"bob@bad"` fail the email grammar and are
rejected naming the field `email`; `"a@b.co"` passes; and with the other
fields valid, the submission is accepted iff the email matches the
grammar. -/
theorem email_grammar (now : Datetime) :
    isValidEmail "not-an-email" = false ∧
    isValidEmail "bob@bad" = false ∧
    isValidEmail "a@b.co" = true ∧
    (∀ r : RawContact, isValidEmail r.email = false →
      ∃ errs, validate r now = .error errs ∧ "email" ∈ errs) ∧
    (∀ nm em ms : String, nm ≠ "" → ms ≠ "" →
      ((∃ c, validate ⟨nm, em, ms, .absent⟩ now = .ok c) ↔
        isValidEmail em = true)) := by
  refine ⟨rfl, rfl, rfl, ?_, ?_⟩
  · intro r h
    exact validate_error_of_mem r now "email"
      ((mem_fieldErrors r "email").2 (Or.inr (Or.inl ⟨rfl, h⟩)))
  · intro nm em ms hn hm
    constructor
    · rintro ⟨c, hc⟩
      have hnil := (validate_ok_inv _ now c hc).1
      rw [fieldErrors_nil_iff] at hnil
      exact hnil.2.1
    · intro he
      apply validate_ok_of_nil
      rw [fieldErrors_nil_iff]
      refine ⟨hn, he, hm, by simp, by intro s hs; cases hs⟩

/-- Witness for C4: the spec's Scenario C input rejected on `email`, and a
valid input accepted. -/
theorem email_grammar_witness :
    (∃ errs, validate ⟨"Bob", "bob@bad", "Hi", .absent⟩ utcnowSample =
      .error errs ∧ "email" ∈ errs) ∧
    (∃ c, validate ⟨"Ada", "a@b.co", "Hi", .absent⟩ utcnowSample = .ok c) :=
  ⟨(email_grammar utcnowSample).2.2.2.1 ⟨"Bob", "bob@bad", "Hi", .absent⟩ rfl,
   ((email_grammar utcnowSample).2.2.2.2 "Ada" "a@b.co" "Hi" (by decide)
     (by decide)).2 rfl⟩

/-- C5: the success dictionary is returned iff validation passed and the
append succeeded; a failing append yields the 500 persistence error
carrying the underlying cause and leaves the log unchanged; persistence
failures (500) are distinct from validation failures (422); and every
outcome is one of the three shapes — there is no other error kind. -/
theorem success_iff_persisted (r : RawContact) (now : Datetime)
    (appendOk : Bool) (exc log : String) :
    ((submit_contact r now appendOk exc log).1 = .accepted ackSuccess ↔
      (∃ c, validate r now = .ok c) ∧ appendOk = true) ∧
    (∀ c, validate r now = .ok c → appendOk = false →
      submit_contact r now appendOk exc log =
        (.persistenceError ("Failed to persist message: " ++ exc), log)) ∧
    (∀ d fs, (SubmitResult.persistenceError d).httpStatus = 500 ∧
      (SubmitResult.validationError fs).httpStatus = 422) ∧
    (∀ res : SubmitResult, (∃ a, res = .accepted a) ∨
      (∃ fs, res = .validationError fs) ∨ (∃ d, res = .persistenceError d)) := by
  refine ⟨?_, ?_, fun d fs => ⟨rfl, rfl⟩, fun res => by cases res <;> simp⟩
  · cases hv : validate r now with
    | error errs =>
      unfold submit_contact
      rw [hv]
      simp [hv]
    | ok c =>
      cases appendOk with
      | false =>
        rw [submit_contact_fail r now c exc log hv]
        simp
      | true =>
        rw [submit_contact_ok r now c exc log hv]
        simp [hv]
  · intro c hc hfalse
    subst hfalse
    exact submit_contact_fail r now c exc log hc

/-- Witness for C5: a valid submission with the append refused yields the
500 persistence error and an unchanged log. -/
theorem success_iff_persisted_witness :
    submit_contact ⟨"Ada", "a@b.co", "Hi", .absent⟩ utcnowSample false
      "disk full" "old\n" =
      (.persistenceError ("Failed to persist message: " ++ "disk full"),
       "old\n") :=
  (success_iff_persisted ⟨"Ada", "a@b.co", "Hi", .absent⟩ utcnowSample false
    "disk full" "old\n").2.1 ⟨"Ada", "a@b.co", "Hi", utcnowSample⟩ rfl rfl

/-- C6 (counterexample): an explicit `null` timestamp on an otherwise valid
input is rejected with a validation error naming `timestamp` — the current
time is not substituted. -/
theorem timestamp_null_cex :
    validate ⟨"Ada", "ada@example.com", "Hi", .null⟩ utcnowSample =
      .error ["timestamp"] := rfl

/-- C6 (amended): a supplied timestamp string must parse as ISO-8601 or
the submission is rejected naming `timestamp`; a parsed value is used as
supplied; when the key is absent the validated model carries this
submission's own `datetime.utcnow()` value (evaluated per construction);
an explicit `null` is rejected naming `timestamp`. -/
theorem timestamp_policy (r : RawContact) (now : Datetime) :
    (∀ s, r.timestamp = .str s → parseIso s = none →
      ∃ errs, validate r now = .error errs ∧ "timestamp" ∈ errs) ∧
    (∀ s d c, r.timestamp = .str s → parseIso s = some d →
      validate r now = .ok c → c.timestamp = d) ∧
    (∀ c, r.timestamp = .absent → validate r now = .ok c →
      c.timestamp = now) ∧
    (r.timestamp = .null →
      ∃ errs, validate r now = .error errs ∧ "timestamp" ∈ errs) := by
  refine ⟨?_, ?_, ?_, ?_⟩
  · intro s ht hp
    exact validate_error_of_mem r now "timestamp"
      ((mem_fieldErrors r "timestamp").2
        (Or.inr (Or.inr (Or.inr ⟨rfl, Or.inr ⟨s, ht, hp⟩⟩))))
  · intro s d c ht hp hc
    have h5 := (validate_ok_inv r now c hc).2.2.2.2
    rw [ht] at h5
    simp [resolveTimestamp, hp] at h5
    exact h5.symm
  · intro c ht hc
    have h5 := (validate_ok_inv r now c hc).2.2.2.2
    rw [ht] at h5
    simp [resolveTimestamp] at h5
    exact h5.symm
  · intro ht
    exact validate_error_of_mem r now "timestamp"
      ((mem_fieldErrors r "timestamp").2
        (Or.inr (Or.inr (Or.inr ⟨rfl, Or.inl ht⟩))))

/-- Witness for the amended C6: an unparseable timestamp rejected naming
`timestamp`, and an absent one defaulted to this call's `utcnow`. -/
theorem timestamp_policy_witness :
    (∃ errs, validate ⟨"Ada", "a@b.co", "Hi", .str "yesterday"⟩ utcnowSample =
      .error errs ∧ "timestamp" ∈ errs) ∧
    (⟨"Ada", "a@b.co", "Hi", utcnowSample⟩ : ContactRequest).timestamp =
      utcnowSample :=
  ⟨(timestamp_policy ⟨"Ada", "a@b.co", "Hi", .str "yesterday"⟩ utcnowSample).1
      "yesterday" rfl rfl,
   (timestamp_policy ⟨"Ada", "a@b.co", "Hi", .absent⟩ utcnowSample).2.2.1
      ⟨"Ada", "a@b.co", "Hi", utcnowSample⟩ rfl rfl⟩

/-- C7: validation happens before any persistence attempt — whenever
validation fails, `submit_contact` returns the validation rejection and the
log is exactly what it was, for every environment and prior log. -/
theorem no_append_on_rejection (r : RawContact) (now : Datetime)
    (appendOk : Bool) (exc log : String) (errs : List String)
    (h : validate r now = .error errs) :
    submit_contact r now appendOk exc log = (.validationError errs, log) := by
  unfold submit_contact
  rw [h]

/-- Witness for C7: the spec's Scenario B input leaves a non-empty log
untouched. -/
theorem no_append_on_rejection_witness :
    submit_contact ⟨"", "ada@example.com", "Hi", .absent⟩ utcnowSample true ""
      "old\n" = (.validationError ["name"], "old\n") :=
  no_append_on_rejection ⟨"", "ada@example.com", "Hi", .absent⟩ utcnowSample
    true "" "old\n" ["name"] rfl

/-- C8: the outcome of `submit_contact` never depends on the log's prior
contents, and resubmitting the same well-formed input twice yields two
success acknowledgements and exactly two appended copies of its record —
no deduplication. -/
theorem stateless_submissions (r : RawContact) (now : Datetime)
    (appendOk : Bool) (exc log log2 : String) (c : ContactRequest) :
    ((submit_contact r now appendOk exc log).1 =
      (submit_contact r now appendOk exc log2).1) ∧
    (validate r now = .ok c →
      (submit_contact r now true exc log).1 = .accepted ackSuccess ∧
      (submit_contact r now true exc
        (submit_contact r now true exc log).2).1 = .accepted ackSuccess ∧
      (submit_contact r now true exc
        (submit_contact r now true exc log).2).2 =
        log ++ logEntry c ++ logEntry c) := by
  constructor
  · unfold submit_contact
    cases validate r now with
    | error errs => rfl
    | ok c => cases appendOk <;> rfl
  · intro h
    have h1 := submit_contact_ok r now c exc log h
    have h2 := submit_contact_ok r now c exc (log ++ logEntry c) h
    refine ⟨by rw [h1], ?_, ?_⟩
    · rw [h1]
      show (submit_contact r now true exc (log ++ logEntry c)).1 =
        SubmitResult.accepted ackSuccess
      rw [h2]
    · rw [h1]
      show (submit_contact r now true exc (log ++ logEntry c)).2 =
        log ++ logEntry c ++ logEntry c
      rw [h2]

/-- Witness for C8: a concrete duplicate submission appends its record
twice. -/
theorem stateless_submissions_witness :
    (submit_contact ⟨"Ada", "a@b.co", "Hi", .absent⟩ utcnowSample true ""
      (submit_contact ⟨"Ada", "a@b.co", "Hi", .absent⟩ utcnowSample true ""
        "").2).2 =
      "" ++ logEntry ⟨"Ada", "a@b.co", "Hi", utcnowSample⟩ ++
        logEntry ⟨"Ada", "a@b.co", "Hi", utcnowSample⟩ :=
  ((stateless_submissions ⟨"Ada", "a@b.co", "Hi", .absent⟩ utcnowSample true
    "" "" "" ⟨"Ada", "a@b.co", "Hi", utcnowSample⟩).2 rfl).2.2

/-- C9: no trimming is applied — every non-empty `name` (resp. `message`)
passes its length check, so a whitespace-only value is accepted and the
submission proceeds to persistence with the value stored untrimmed. -/
theorem whitespace_not_trimmed (r : RawContact) (now : Datetime) :
    (r.name ≠ "" → "name" ∉ fieldErrors r) ∧
    (r.message ≠ "" → "message" ∉ fieldErrors r) ∧
    submit_contact ⟨" ", "a@b.co", " ", .absent⟩ now true "" "" =
      (.accepted ackSuccess,
       now.isoformat ++ "\t" ++ " " ++ "\t" ++ "a@b.co" ++ "\t" ++ " " ++
         "\n") := by
  refine ⟨?_, ?_, ?_⟩
  · intro h hmem
    rw [mem_fieldErrors] at hmem
    rcases hmem with ⟨-, h1⟩ | ⟨h1, -⟩ | ⟨h1, -⟩ | ⟨h1, -⟩
    · exact h h1
    all_goals exact absurd h1 (by decide)
  · intro h hmem
    rw [mem_fieldErrors] at hmem
    rcases hmem with ⟨h1, -⟩ | ⟨h1, -⟩ | ⟨-, h1⟩ | ⟨h1, -⟩
    · exact absurd h1 (by decide)
    · exact absurd h1 (by decide)
    · exact h h1
    · exact absurd h1 (by decide)
  · rw [submit_contact_ok ⟨" ", "a@b.co", " ", .absent⟩ now
      ⟨" ", "a@b.co", " ", now⟩ "" "" rfl]
    rw [Prod.mk.injEq]
    exact ⟨rfl, by rw [strEmptyAppend]; rfl⟩

/-- Witness for C9: whitespace-only name and message pass validation. -/
theorem whitespace_not_trimmed_witness :
    ("name" ∉ fieldErrors ⟨" ", "a@b.co", "Hello", .absent⟩) ∧
    ("message" ∉ fieldErrors ⟨"Ada", "a@b.co", " ", .absent⟩) :=
  ⟨(whitespace_not_trimmed ⟨" ", "a@b.co", "Hello", .absent⟩ utcnowSample).1
      (by decide),
   (whitespace_not_trimmed ⟨"Ada", "a@b.co", " ", .absent⟩ utcnowSample).2.1
      (by decide)⟩

/-- C10: a defaulted timestamp (naive `utcnow`) is serialized by
`isoformat` with no UTC-offset designator, while a caller-supplied
timezone-aware timestamp is serialized with its `±HH:MM` offset appended —
and the parser round-trips an aware input, preserving the offset. -/
theorem timestamp_offset_rendering (r : RawContact) (now : Datetime)
    (c : ContactRequest) :
    (r.timestamp = .absent → now.tzOffsetMinutes = none →
      validate r now = .ok c →
      c.timestamp.isoOffset = "" ∧
      c.timestamp.isoformat = c.timestamp.isoBase ++ c.timestamp.isoFrac) ∧
    (∀ s off, r.timestamp = .str s → validate r now = .ok c →
      c.timestamp.tzOffsetMinutes = some off →
      c.timestamp.isoformat =
        c.timestamp.isoBase ++ c.timestamp.isoFrac ++ offsetString off ∧
      offsetString off ≠ "") ∧
    (parseIso "2024-01-02T03:04:05+05:30").map Datetime.isoformat =
      some "2024-01-02T03:04:05+05:30" := by
  refine ⟨?_, ?_, rfl⟩
  · intro ht hn hc
    have h5 := (validate_ok_inv r now c hc).2.2.2.2
    rw [ht] at h5
    have hts : c.timestamp = now := by
      simp [resolveTimestamp] at h5
      exact h5.symm
    have hoff : c.timestamp.isoOffset = "" := by
      unfold Datetime.isoOffset
      rw [hts, hn]
    exact ⟨hoff, by rw [Datetime.isoformat, hoff, String.append_empty]⟩
  · intro s off _ _ hoff
    refine ⟨?_, offsetString_ne_empty off⟩
    rw [Datetime.isoformat]
    unfold Datetime.isoOffset
    rw [hoff]

/-- Witness for C10: the naive sample `utcnow` value renders with no
offset designator. -/
theorem timestamp_offset_rendering_witness :
    (⟨"Ada", "a@b.co", "Hi", utcnowSample⟩ : ContactRequest).timestamp.isoOffset
        = "" ∧
    (⟨"Ada", "a@b.co", "Hi", utcnowSample⟩ :
        ContactRequest).timestamp.isoformat =
      (⟨"Ada", "a@b.co", "Hi", utcnowSample⟩ :
        ContactRequest).timestamp.isoBase ++
      (⟨"Ada", "a@b.co", "Hi", utcnowSample⟩ :
        ContactRequest).timestamp.isoFrac :=
  (timestamp_offset_rendering ⟨"Ada", "a@b.co", "Hi", .absent⟩ utcnowSample
    ⟨"Ada", "a@b.co", "Hi", utcnowSample⟩).1 rfl rfl rfl
